import Mathlib

/-!
Verification development for the kelp-os gateway (C sources under
`src-c/gateway`, `libkelp-agents/tool.c` and the WebSocket codec).

The C code is shallowly embedded: buffers are lists of characters, byte
streams are lists of naturals, machine integers are `Nat`/`Int` with
explicit wrap-around where the C code can overflow, fallible operations
return `Option`.  Each definition mirrors one C function (same name where
Lean allows it); properties of the embedded functions are proved below the
definitions.
-/

set_option linter.unusedVariables false

/-! ## Small helpers -/

/-- A single-quote character, used when assembling error strings. -/
def squote : String := String.singleton (Char.ofNat 39)

/-- Last element of a list, as an `Option` (recursive form convenient for
induction). -/
def lastOpt {α : Type} : List α → Option α
  | [] => none
  | a :: l => match lastOpt l with
    | some b => some b
    | none => some a

/-! ## Tool registry (`libkelp-agents/tool.c`) -/

/-- `kelp_tool_result_t`: output text, error flag and exit code. -/
structure kelp_tool_result where
  output : String
  is_error : Bool
  exit_code : Int
deriving DecidableEq, Repr

/-- One registered tool (`tool_entry_t`).  The executor callback is modelled
as a pure function from the argument JSON to a return code and a result. -/
structure tool_entry where
  name : String
  description : String
  params_json : String
  exec : String → Int × kelp_tool_result
  requires_sandbox : Bool
  requires_confirmation : Bool

/-- `kelp_tool_ctx`: the name-keyed tool table (`kelp_map_t` is modelled as
an association list looked up by name). -/
structure kelp_tool_ctx where
  workspace_dir : Option String
  tools : List tool_entry

/-- `kelp_map_get(ctx->tools, name)`. -/
def kelp_map_get (ctx : kelp_tool_ctx) (name : String) : Option tool_entry :=
  ctx.tools.find? (fun e => e.name == name)

/-- `kelp_tool_execute`: looks the tool up by name; unknown names produce the
fixed error result without invoking any executor, known names invoke the
stored executor on the argument JSON (`"{}"` when the C caller passes NULL,
which the embedding represents by the caller passing that default). -/
def kelp_tool_execute (ctx : kelp_tool_ctx) (name : String) (args_json : String) :
    Int × kelp_tool_result :=
  match kelp_map_get ctx name with
  | none =>
      (-1, { output := "error: unknown tool " ++ squote ++ name ++ squote
             is_error := true
             exit_code := -1 })
  | some entry => entry.exec args_json

/-! ## Chat handler message selection (`handler_chat.c`) -/

/-- One element of the request's `messages` array as seen through
`json_get_str`: `role`/`content` are `none` when the key is missing or not a
string. -/
structure chat_msg where
  role : Option String
  content : Option String
deriving DecidableEq, Repr

/-- One step of the `cJSON_ArrayForEach` loop in `handler_chat`: a message
with both `role` and `content` strings overwrites `user_msg` when the role is
`"user"` and `system_msg` when the role is `"system"`. -/
def chat_scan_step (acc : Option String × Option String) (m : chat_msg) :
    Option String × Option String :=
  match m.role, m.content with
  | some r, some c =>
      if r = "user" then (some c, acc.2)
      else if r = "system" then (acc.1, some c)
      else acc
  | _, _ => acc

/-- The whole scan loop of `handler_chat` (lines 69-80): starts from
`user_msg = NULL`, `system_msg = NULL`. -/
def chat_scan (msgs : List chat_msg) : Option String × Option String :=
  msgs.foldl chat_scan_step (none, none)

/-- `handler_chat` after the scan: no user message is a 400 error (`none`);
otherwise the pair (forwarded user content, system prompt) where a missing
system message falls back to the configured default prompt. -/
def handler_chat_select (msgs : List chat_msg) (default_system : String) :
    Option (String × String) :=
  match chat_scan msgs with
  | (none, _) => none
  | (some u, sys) => some (u, sys.getD default_system)

/-- The contents of the messages that the scan loop accepts for a given role:
both `role` and `content` must be present and the role must match. -/
def contentsWithRole (r : String) (msgs : List chat_msg) : List String :=
  msgs.filterMap (fun m =>
    match m.role, m.content with
    | some r', some c => if r' = r then some c else none
    | _, _ => none)

/-! ## Session store (`session_store.c`) -/

/-- A row of the `sessions` table. -/
structure session_row where
  id : String
  channel_id : String
  created_at : Nat
  updated_at : Nat
deriving DecidableEq, Repr

/-- A row of the `messages` table; `id` is the `AUTOINCREMENT` primary key. -/
structure message_row where
  id : Nat
  session_id : String
  role : String
  content : String
  created_at : Nat
deriving DecidableEq, Repr

/-- The open store: both tables plus the next `AUTOINCREMENT` value. -/
structure session_store where
  sessions : List session_row
  messages : List message_row
  next_msg_id : Nat
deriving DecidableEq, Repr

/-- `session_store_add_message` runs
`UPDATE sessions SET updated_at = strftime(..) WHERE id = ?` through
`sqlite3_exec`, which never binds SQL parameters: the `?` stays SQL `NULL`,
and the comparison `id = NULL` evaluates to `NULL`, which is not true for any
row.  This predicate is that WHERE clause. -/
def sql_id_eq_unbound_null (_id : String) : Bool := false

/-- `session_store_add_message` (lines 116-139): insert the message row with
the next auto-increment id and the current time, then run the unbound
`UPDATE` over the `sessions` table.  Returns the updated store and the
`OC_OK`/`OC_ERR` outcome (the insert itself succeeds in the embedding, so the
outcome is `true`). -/
def session_store_add_message (st : session_store) (session_id role content : String)
    (now : Nat) : session_store × Bool :=
  let inserted : message_row :=
    { id := st.next_msg_id, session_id := session_id, role := role,
      content := content, created_at := now }
  let st₁ := { st with
      messages := st.messages ++ [inserted],
      next_msg_id := st.next_msg_id + 1 }
  let st₂ := { st₁ with
      sessions := st₁.sessions.map (fun s =>
        if sql_id_eq_unbound_null s.id then { s with updated_at := now } else s) }
  (st₂, true)

/-- SQLite's contract for `ORDER BY created_at DESC` with no secondary sort
key: the engine emits SOME permutation of the matching rows that is sorted
newest-first on `created_at` alone; the relative order of rows sharing a
`created_at` is not specified by the query, so any such permutation is a
permitted execution. -/
def sqlite_order_by_created_desc (rows ordered : List message_row) : Prop :=
  List.Perm ordered rows ∧
    ordered.Pairwise (fun a b => b.created_at ≤ a.created_at)

/-- `LIMIT (limit > 0 ? limit : 50)` applied to the engine's chosen ordering
of the session's rows (the `WHERE session_id = ? ORDER BY created_at DESC`
output, constrained by `sqlite_order_by_created_desc`). -/
def history_rows (limit : Int) (ordered : List message_row) :
    List message_row :=
  ordered.take (if 0 < limit then limit.toNat else 50)

/-- One history row rendered exactly as the `snprintf` in
`session_store_get_history` renders it: the strings are inlined with no JSON
escaping. -/
def render_history_row (m : message_row) : String :=
  "\x7b\"role\":\"" ++ m.role ++ "\",\"content\":\"" ++ m.content ++ "\"\x7d"

/-- The JSON-array text built row by row (`first ? "" : ","`). -/
def render_history_rows (rows : List message_row) : String :=
  match rows with
  | [] => ""
  | r :: rest => render_history_row r ++
      String.join (rest.map (fun m => "," ++ render_history_row m))

/-- `session_store_get_history` (lines 141-181): step the prepared query and
render each returned row.  `ordered` is the row sequence the SQLite engine
chose for `WHERE session_id = ? ORDER BY created_at DESC` (the store and
session id bind the query; which sequences are permitted for them is the
separate `sqlite_order_by_created_desc` constraint, since the SQL fixes no
order between rows of equal `created_at`). -/
def session_store_get_history (_st : session_store) (_session_id : String)
    (limit : Int) (ordered : List message_row) : String :=
  "[" ++ render_history_rows (history_rows limit ordered) ++ "]"

/-- A store with two messages of one session sharing a `created_at`. -/
def histStoreEx : session_store :=
  { sessions := [], next_msg_id := 3,
    messages :=
      [{ id := 1, session_id := "s1", role := "user", content := "a",
         created_at := 10 },
       { id := 2, session_id := "s1", role := "assistant", content := "b",
         created_at := 10 }] }

/-- An engine ordering of `histStoreEx`'s rows permitted by
`ORDER BY created_at DESC`: the tied rows come back id-descending. -/
def histTieOrderEx : List message_row :=
  [{ id := 2, session_id := "s1", role := "assistant", content := "b",
     created_at := 10 },
   { id := 1, session_id := "s1", role := "user", content := "a",
     created_at := 10 }]

/-- Output ordering demanded of the history: strictly newer first, equal
timestamps ordered by ascending auto-increment id. -/
def newestFirstIdTie (a b : message_row) : Prop :=
  b.created_at < a.created_at ∨ (b.created_at = a.created_at ∧ a.id < b.id)

instance : DecidableRel newestFirstIdTie := by
  intro a b
  unfold newestFirstIdTie
  infer_instance

/-! ## HTTP response builder and router (`http_parser.c`, `part_016`) -/

/-- `http_method_t`. -/
inductive http_method where
  | GET | POST | PUT | DELETE | OPTIONS | HEAD | UNKNOWN
deriving DecidableEq, Repr

/-- `http_response_build_t`: status line data, the header lines appended so
far (in registration order) and the optional body. -/
structure http_response_build where
  status_code : Nat
  status_text : String
  headers : List (String × String)
  body : Option String
deriving DecidableEq, Repr

/-- `http_response_init`: 200 OK, no headers, no body. -/
def http_response_init : http_response_build :=
  { status_code := 200, status_text := "OK", headers := [], body := none }

/-- `http_response_add_header` appends one `key: value` line. -/
def http_response_add_header (r : http_response_build) (k v : String) :
    http_response_build :=
  { r with headers := r.headers ++ [(k, v)] }

/-- `http_response_set_json`: a `Content-Type: application/json` header plus
the body. -/
def http_response_set_json (r : http_response_build) (json : String) :
    http_response_build :=
  { http_response_add_header r "Content-Type" "application/json" with body := some json }

/-- `http_response_set_status`. -/
def http_response_set_status (r : http_response_build) (code : Nat) (text : String) :
    http_response_build :=
  { r with status_code := code, status_text := text }

/-- What a route handler may do to the response through the builder API:
append header lines, optionally replace status and body.  (The C builder
exposes no way to remove or reorder headers.) -/
structure handler_effect where
  extra_headers : List (String × String)
  status : Option (Nat × String)
  body : Option String

/-- Replay a handler's builder calls on top of the response it was given. -/
def apply_handler_effect (r : http_response_build) (e : handler_effect) :
    http_response_build :=
  { status_code := (e.status.map Prod.fst).getD r.status_code
    status_text := (e.status.map Prod.snd).getD r.status_text
    headers := r.headers ++ e.extra_headers
    body := match e.body with | some b => some b | none => r.body }

/-- The request data the router consults. -/
structure router_request where
  method : http_method
  path : String
deriving DecidableEq, Repr

/-- A `route_t`: method, pattern and the handler's effect on the response. -/
structure route_t where
  method : http_method
  pattern : String
  handler : router_request → handler_effect

/-- `route_matches`: same method, then exact pattern equality or — for a
pattern ending in `*` of length > 1 — equality of the first `plen - 1`
characters of pattern and path (the `strncmp` semantics). -/
def route_matches (r : route_t) (method : http_method) (path : String) : Bool :=
  if r.method ≠ method then false
  else
    let p := r.pattern.data
    let plen := p.length
    if r.pattern = path then true
    else if 1 < plen ∧ p.getLast? = some (Char.ofNat 42) then
      decide (path.data.take (plen - 1) = p.take (plen - 1))
    else false

/-- The fixed 404 response of `router_dispatch` (no CORS header is added on
this path: only `http_response_set_json`'s Content-Type). -/
def not_found_response : http_response_build :=
  http_response_set_json
    (http_response_set_status http_response_init 404 "Not Found")
    "\x7b\"error\":\"Not Found\"\x7d"

/-- The `OPTIONS` preflight response: 204 plus the three CORS headers. -/
def preflight_response : http_response_build :=
  http_response_add_header
    (http_response_add_header
      (http_response_add_header
        (http_response_set_status http_response_init 204 "No Content")
        "Access-Control-Allow-Origin" "*")
      "Access-Control-Allow-Methods" "GET, POST, OPTIONS")
    "Access-Control-Allow-Headers" "Content-Type, Authorization"

/-- `router_dispatch` (lines 276-309): OPTIONS short-circuits with the
preflight response; otherwise the first matching route runs with
`Access-Control-Allow-Origin: *` pre-added; otherwise the 404 JSON response
is sent. -/
def router_dispatch (routes : List route_t) (req : router_request) :
    http_response_build :=
  if req.method = http_method.OPTIONS then preflight_response
  else
    match routes.find? (fun r => route_matches r req.method req.path) with
    | some r =>
        apply_handler_effect
          (http_response_add_header http_response_init "Access-Control-Allow-Origin" "*")
          (r.handler req)
    | none => not_found_response

/-! ## Health handler (`handler_health.c`, `epoll_server.c`) -/

/-- `OPENCLAW_VERSION`. -/
def OPENCLAW_VERSION : String := "0.1.0"

/-- The gateway statistics that `handler_health` reads. -/
structure gateway_stats where
  total_requests : Nat
  active_connections : Nat
  start_time : Nat
deriving DecidableEq, Repr

/-- The body `handler_health` produces (cJSON renders the small integer
counters verbatim). -/
def render_health_json (status version : String)
    (uptime total_requests active_connections : Nat) : String :=
  "\x7b\"status\":\"" ++ status ++ "\",\"version\":\"" ++ version ++
    "\",\"uptime_seconds\":" ++ toString uptime ++
    ",\"total_requests\":" ++ toString total_requests ++
    ",\"active_connections\":" ++ toString active_connections ++ "\x7d"

/-- `handler_health` (lines 8-30): status ok, the declared version, the
monotonic-clock uptime `now - start_time` and the two counters. -/
def handler_health (gw : gateway_stats) (now : Nat) : String :=
  render_health_json "ok" OPENCLAW_VERSION (now - gw.start_time)
    gw.total_requests gw.active_connections

/-- The completed-request accounting of `handle_client_data` (line 159):
`total_requests` is incremented before `router_dispatch` runs the handler. -/
def handle_request_completed (gw : gateway_stats) : gateway_stats :=
  { gw with total_requests := gw.total_requests + 1 }

/-- One complete `GET /health` turn: the request counter is bumped, then the
health handler renders the body from the updated statistics. -/
def gateway_health_turn (gw : gateway_stats) (now : Nat) : gateway_stats × String :=
  let gw' := handle_request_completed gw
  (gw', handler_health gw' now)

/-! ## HTTP request parsing (`http_parser.c`) -/

/-- `GW_READ_BUF_SIZE`. -/
def GW_READ_BUF_SIZE : Nat := 8192

/-- `GW_MAX_HEADERS`. -/
def GW_MAX_HEADERS : Nat := 64

/-- `GW_MAX_URL_LEN`. -/
def GW_MAX_URL_LEN : Nat := 2048

/-- `GW_MAX_BODY_LEN`. -/
def GW_MAX_BODY_LEN : Nat := 1048576

/-- Does `pat` occur at the head of `l`?  (The prefix test behind `strstr`.) -/
def beginsWith : List Char → List Char → Bool
  | [], _ => true
  | _ :: _, [] => false
  | p :: ps, x :: xs => p == x && beginsWith ps xs

/-- `strchr`: index of the first occurrence of `c`, if any. -/
def findCharIdx (c : Char) : List Char → Option Nat
  | [] => none
  | x :: rest => if x = c then some 0 else (findCharIdx c rest).map (· + 1)

/-- `strstr`: index of the first occurrence of `pat`, if any. -/
def findSubIdx (pat : List Char) : List Char → Option Nat
  | [] => if beginsWith pat [] then some 0 else none
  | x :: rest =>
      if beginsWith pat (x :: rest) then some 0
      else (findSubIdx pat rest).map (· + 1)

/-- `memcpy` of `len` bytes starting at offset `start`. -/
def subList (l : List Char) (start len : Nat) : List Char :=
  (l.drop start).take len

/-- The `"\r\n"` separator. -/
def CRLF : List Char := ['\r', '\n']

/-- The `"\r\n\r\n"` header terminator. -/
def CRLFCRLF : List Char := ['\r', '\n', '\r', '\n']

/-- `parse_method` (length-limited `memcmp` against the known tokens). -/
def parse_method (s : List Char) : http_method :=
  if s = "GET".data then http_method.GET
  else if s = "POST".data then http_method.POST
  else if s = "PUT".data then http_method.PUT
  else if s = "DELETE".data then http_method.DELETE
  else if s = "OPTIONS".data then http_method.OPTIONS
  else if s = "HEAD".data then http_method.HEAD
  else http_method.UNKNOWN

/-- One stored header (a `key[256]` / `value[512]` pair; over-long fields are
left uncopied, which reads back as the zeroed buffer, i.e. the empty
string). -/
structure http_header_kv where
  key : List Char
  value : List Char
deriving DecidableEq, Repr

/-- A parsed request (`http_request_t`). -/
structure http_request_t where
  method : http_method
  url : List Char
  path : List Char
  query : List Char
  headers : List http_header_kv
  content_length : Nat
  keep_alive : Bool
  body : List Char
deriving DecidableEq, Repr

/-- Result of one `http_parse_request` call: `1` while more data is needed
(either still in the header phase or having switched to the body phase),
`-1` on protocol error, `0` when the request is complete. -/
inductive parse_outcome where
  | needMoreHeaders
  | protoErr
  | needMoreBody (partialReq : http_request_t)
  | complete (req : http_request_t)
deriving DecidableEq, Repr

/-- Case-insensitive normalisation used by `strcasecmp`. -/
def hdr_lower (s : List Char) : List Char := s.map Char.toLower

/-- `find_header`: first header whose key matches case-insensitively. -/
def find_header (headers : List http_header_kv) (key : List Char) :
    Option (List Char) :=
  (headers.find? (fun h => hdr_lower h.key == hdr_lower key)).map (fun h => h.value)

/-- `isspace` over the ASCII range, as `atol` skips it. -/
def c_isspace (c : Char) : Bool :=
  c == ' ' || c == '\t' || c == '\n' || c == Char.ofNat 11 ||
    c == Char.ofNat 12 || c == '\r'

/-- The digit-accumulating loop of `atol`. -/
def atol_digits : List Char → Nat → Nat
  | [], acc => acc
  | c :: rest, acc =>
      if c.isDigit then atol_digits rest (acc * 10 + (c.toNat - 48)) else acc

/-- `atol`. -/
def c_atol (s : List Char) : Int :=
  match s.dropWhile c_isspace with
  | '-' :: rest => -(atol_digits rest 0 : Int)
  | '+' :: rest => (atol_digits rest 0 : Int)
  | rest => (atol_digits rest 0 : Int)

/-- `(size_t)atol(cl)`: the 64-bit unsigned conversion. -/
def size_t_of_atol (s : List Char) : Nat :=
  ((c_atol s).emod 18446744073709551616).toNat

/-- Number of leading spaces (the value left-trim loop). -/
def count_leading_spaces : List Char → Nat
  | [] => 0
  | c :: rest => if c = ' ' then count_leading_spaces rest + 1 else 0

/-- Build one stored header entry from the line `[pos, nextAbs)` whose colon
sits at relative offset `crel`: over-long keys/values are not copied (the
zeroed buffers read back empty). -/
def mk_header_entry (buf : List Char) (pos crel nextAbs : Nat) : http_header_kv :=
  let key := if crel < 256 then subList buf pos crel else []
  let valStart := pos + crel + 1 + count_leading_spaces (buf.drop (pos + crel + 1))
  let valLen := nextAbs - valStart
  let value := if valLen < 512 then subList buf valStart valLen else []
  { key := key, value := value }

/-- The header loop of `http_parse_request` (lines 134-156): starting at
`pos`, while the line start is before `headerEnd` and fewer than
`GW_MAX_HEADERS` entries are stored, find the next `\r\n`; stop on an empty
line or a missing terminator; store an entry only when a colon occurs before
the terminator; always advance past the terminator. -/
def parse_headers_go (buf : List Char) (headerEnd : Nat) :
    Nat → Nat → List http_header_kv → List http_header_kv
  | 0, _, acc => acc
  | fuel + 1, pos, acc =>
    if pos < headerEnd ∧ acc.length < GW_MAX_HEADERS then
      match findSubIdx CRLF (buf.drop pos) with
      | none => acc
      | some rel =>
          if rel = 0 then acc
          else
            let nextAbs := pos + rel
            let entry? : Option http_header_kv :=
              match findCharIdx ':' (buf.drop pos) with
              | none => none
              | some crel =>
                  if crel < rel then some (mk_header_entry buf pos crel nextAbs) else none
            parse_headers_go buf headerEnd fuel (nextAbs + 2) (acc ++ entry?.toList)
    else acc

/-- The loop with enough fuel: the line start advances by at least three
positions per iteration and the loop stops once it reaches `headerEnd`, so
`headerEnd + 1` iterations can never be exhausted. -/
def parse_headers_loop (buf : List Char) (headerEnd : Nat) (pos : Nat)
    (acc : List http_header_kv) : List http_header_kv :=
  parse_headers_go buf headerEnd (headerEnd + 1) pos acc

/-- `http_parse_request` in the `CONN_READING_HEADERS` state (lines 92-188).
`keep_alive₀` is the connection's current keep-alive flag (initially true). -/
def http_parse_request_headers (buf : List Char) (keep_alive₀ : Bool) :
    parse_outcome :=
  match findSubIdx CRLFCRLF buf with
  | none => parse_outcome.needMoreHeaders
  | some hpos =>
    match findCharIdx ' ' buf with
    | none => parse_outcome.protoErr
    | some sp1 =>
      let method := parse_method (buf.take sp1)
      match findCharIdx ' ' (buf.drop (sp1 + 1)) with
      | none => parse_outcome.protoErr
      | some urlLen =>
        if GW_MAX_URL_LEN ≤ urlLen then parse_outcome.protoErr
        else
          let url := subList buf (sp1 + 1) urlLen
          let pathQuery : List Char × List Char :=
            match findCharIdx (Char.ofNat 63) url with
            | some q => (url.take q, (url.drop (q + 1)).take (GW_MAX_URL_LEN - 1))
            | none => (url.take (GW_MAX_URL_LEN - 1), [])
          let headers :=
            match findSubIdx CRLF buf with
            | some cr => parse_headers_loop buf hpos (cr + 2) []
            | none => []
          let content_length :=
            match find_header headers ("Content-Length".data) with
            | some v => size_t_of_atol v
            | none => 0
          let keep_alive :=
            match find_header headers ("Connection".data) with
            | some v => if hdr_lower v = "close".data then false else keep_alive₀
            | none => keep_alive₀
          let headerSize := hpos + 4
          let req : http_request_t :=
            { method := method, url := url, path := pathQuery.1,
              query := pathQuery.2, headers := headers,
              content_length := content_length, keep_alive := keep_alive,
              body := [] }
          if 0 < content_length then
            if content_length ≤ buf.length - headerSize then
              parse_outcome.complete
                { req with body := subList buf headerSize content_length }
            else parse_outcome.needMoreBody req
          else parse_outcome.complete req

/-- `connection_read` (lines 38-64): repeatedly ensure one spare byte of
capacity (doubling, failing once the doubled capacity would exceed
`GW_MAX_BODY_LEN + GW_READ_BUF_SIZE`), then consume as many of the pending
socket bytes as fit; once the socket would block the call returns the buffer
read so far.  `none` is the `-1` "Request too large" path. -/
def connection_read_go : Nat → List Char → Nat → List Char → Option (List Char × Nat)
  | 0, _, _, _ => none
  | fuel + 1, buf, cap, incoming =>
    if cap ≤ buf.length + 1 then
      if GW_MAX_BODY_LEN + GW_READ_BUF_SIZE < cap * 2 then none
      else connection_read_go fuel buf (cap * 2) incoming
    else
      match incoming with
      | [] => some (buf, cap)
      | c :: rest =>
          let n := min (cap - buf.length - 1) (rest.length + 1)
          connection_read_go fuel (buf ++ (c :: rest).take n) cap ((c :: rest).drop n)

/-- `connection_read` with enough fuel for the loop: every iteration either
consumes at least one pending byte, doubles the capacity (which can happen at
most eight times from `GW_READ_BUF_SIZE` before the size check fails), or is
the final would-block/failure iteration, so `incoming.length + 16` iterations
are never exhausted from the gateway's start state. -/
def connection_read (buf : List Char) (cap : Nat) (incoming : List Char) :
    Option (List Char × Nat) :=
  connection_read_go (incoming.length + 16) buf cap incoming

/-- Does `handle_client_data` (epoll_server.c lines 144-174) close the
connection?  `none` models `connection_read` failing; otherwise only a
complete request on a non-keep-alive connection closes — parse errors and
need-more outcomes leave the connection open. -/
def handle_client_data_closes (read_result : Option parse_outcome)
    (keep_alive : Bool) : Bool :=
  match read_result with
  | none => true
  | some (parse_outcome.complete _) => !keep_alive
  | some _ => false

/-! ## SHA-1 and base64 (the OpenSSL routines `ws_handle_upgrade` calls)

The gateway links against OpenSSL for `SHA1` and the base64 BIO.  Both are
standard algorithms (FIPS 180-1 / RFC 4648); they are embedded here directly
so that the `Sec-WebSocket-Accept` computation is a closed function.  The
RFC 6455 example key below validates the embedding end to end. -/

/-- Truncation to 32 bits. -/
def u32 (n : Nat) : Nat := n % 4294967296

/-- 32-bit left rotation. -/
def rotl32 (n k : Nat) : Nat := u32 (n <<< k) ||| (n >>> (32 - k))

/-- Number of zero bytes the SHA-1 padding inserts after the `0x80` byte. -/
def sha1_pad_zeros (len : Nat) : Nat := (120 - (len + 1) % 64) % 64

/-- Big-endian bytes of an 8-byte (here: bit-length) field. -/
def be64_bytes (n : Nat) : List Nat :=
  [n >>> 56 % 256, n >>> 48 % 256, n >>> 40 % 256, n >>> 32 % 256,
   n >>> 24 % 256, n >>> 16 % 256, n >>> 8 % 256, n % 256]

/-- SHA-1 message padding. -/
def sha1_pad (msg : List Nat) : List Nat :=
  msg ++ [128] ++ List.replicate (sha1_pad_zeros msg.length) 0 ++
    be64_bytes (msg.length * 8)

/-- Split into 64-byte blocks (structural recursion on a fuel bounded by the
list length: every step consumes at least one byte, so the fuel never runs
out on the recursive path). -/
def chunks64_go : Nat → List Nat → List (List Nat)
  | 0, _ => []
  | _, [] => []
  | fuel + 1, c :: rest => ((c :: rest).take 64) :: chunks64_go fuel ((c :: rest).drop 64)

/-- Split into 64-byte blocks. -/
def chunks64 (l : List Nat) : List (List Nat) := chunks64_go l.length l

/-- Big-endian 32-bit word from four bytes of a block. -/
def be32_word (block : List Nat) (i : Nat) : Nat :=
  (block.getD (4 * i) 0) <<< 24 ||| (block.getD (4 * i + 1) 0) <<< 16 |||
    (block.getD (4 * i + 2) 0) <<< 8 ||| block.getD (4 * i + 3) 0

/-- The 80-word message schedule. -/
def sha1_schedule (block : List Nat) : List Nat :=
  (List.range 64).foldl
    (fun w j =>
      w ++ [rotl32 (Nat.xor (Nat.xor (w.getD (j + 13) 0) (w.getD (j + 8) 0))
                     (Nat.xor (w.getD (j + 2) 0) (w.getD j 0))) 1])
    ((List.range 16).map (be32_word block))

/-- Round function. -/
def sha1_f (i b c d : Nat) : Nat :=
  if i < 20 then (b &&& c) ||| ((Nat.xor b 4294967295) &&& d)
  else if i < 40 then Nat.xor (Nat.xor b c) d
  else if i < 60 then (b &&& c) ||| (b &&& d) ||| (c &&& d)
  else Nat.xor (Nat.xor b c) d

/-- Round constant. -/
def sha1_k (i : Nat) : Nat :=
  if i < 20 then 1518500249
  else if i < 40 then 1859775393
  else if i < 60 then 2400959708
  else 3395469782

/-- Process one 64-byte block. -/
def sha1_compress (h : Nat × Nat × Nat × Nat × Nat) (block : List Nat) :
    Nat × Nat × Nat × Nat × Nat :=
  let w := sha1_schedule block
  let r := (List.range 80).foldl
    (fun s i =>
      let (a, b, c, d, e) := s
      let temp := u32 (rotl32 a 5 + sha1_f i b c d + e + sha1_k i + w.getD i 0)
      (temp, a, rotl32 b 30, c, d))
    h
  let (h0, h1, h2, h3, h4) := h
  let (a, b, c, d, e) := r
  (u32 (h0 + a), u32 (h1 + b), u32 (h2 + c), u32 (h3 + d), u32 (h4 + e))

/-- Big-endian bytes of one 32-bit word. -/
def be32_bytes (n : Nat) : List Nat :=
  [n >>> 24 % 256, n >>> 16 % 256, n >>> 8 % 256, n % 256]

/-- SHA-1 of a byte string (20-byte digest). -/
def sha1 (msg : List Nat) : List Nat :=
  let (h0, h1, h2, h3, h4) :=
    (chunks64 (sha1_pad msg)).foldl sha1_compress
      (1732584193, 4023233417, 2562383102, 271733878, 3285377520)
  be32_bytes h0 ++ be32_bytes h1 ++ be32_bytes h2 ++ be32_bytes h3 ++ be32_bytes h4

/-- The base64 alphabet. -/
def b64_alphabet : List Char :=
  "ABCDEFGHIJKLMNOPQRSTUVWXYZabcdefghijklmnopqrstuvwxyz0123456789+/".data

/-- One base64 output character. -/
def b64_char (n : Nat) : String := String.singleton (b64_alphabet.getD n 'A')

/-- RFC 4648 base64 with `=` padding (what `BIO_f_base64` emits with
`BIO_FLAGS_BASE64_NO_NL`). -/
def base64_encode : List Nat → String
  | [] => ""
  | [b1] =>
      b64_char (b1 >>> 2) ++ b64_char ((b1 &&& 3) <<< 4) ++ "=="
  | [b1, b2] =>
      b64_char (b1 >>> 2) ++ b64_char (((b1 &&& 3) <<< 4) ||| (b2 >>> 4)) ++
        b64_char ((b2 &&& 15) <<< 2) ++ "="
  | b1 :: b2 :: b3 :: rest =>
      b64_char (b1 >>> 2) ++ b64_char (((b1 &&& 3) <<< 4) ||| (b2 >>> 4)) ++
        b64_char (((b2 &&& 15) <<< 2) ||| (b3 >>> 6)) ++ b64_char (b3 &&& 63) ++
        base64_encode rest

/-! ## WebSocket upgrade and frames (`part_014`) -/

/-- The RFC 6455 magic GUID (`WS_MAGIC`). -/
def WS_MAGIC : String := "258EAFA5-E914-47DA-95CA-5AB5DC085B11"

/-- `ws_find_header`: case-insensitive lookup over the parsed header pairs. -/
def ws_find_header (headers : List (String × String)) (key : String) :
    Option String :=
  (headers.find? (fun kv => hdr_lower kv.1.data == hdr_lower key.data)).map
    (fun kv => kv.2)

/-- The accept key `ws_handle_upgrade` computes: the key and the magic GUID
are concatenated by `snprintf` into a 256-byte buffer, so at most 255
characters survive before SHA-1 runs. -/
def ws_accept_for_key (key : String) : String :=
  base64_encode (sha1 (((key ++ WS_MAGIC).data.take 255).map Char.toNat))

/-- Result of a successful upgrade: the raw 101 response text plus the
connection state flags that are set. -/
structure ws_upgrade_result where
  response : String
  is_websocket : Bool
  conn_state_websocket : Bool
deriving DecidableEq, Repr

/-- `ws_handle_upgrade` (lines 46-76): requires the `Sec-WebSocket-Key`
header; replies `101 Switching Protocols` with the computed accept value and
marks the connection as a WebSocket. -/
def ws_handle_upgrade (headers : List (String × String)) :
    Option ws_upgrade_result :=
  match ws_find_header headers "Sec-WebSocket-Key" with
  | none => none
  | some key =>
      some { response :=
               "HTTP/1.1 101 Switching Protocols\r\nUpgrade: websocket\r\n" ++
               "Connection: Upgrade\r\nSec-WebSocket-Accept: " ++
               ws_accept_for_key key ++ "\r\n\r\n"
             is_websocket := true
             conn_state_websocket := true }

/-- The in-place unmasking loop of `ws_read_frame`:
`data[i] ^= mask_key[i % 4]` starting at index `i`. -/
def ws_xor_mask (mask_key : List Nat) (i : Nat) : List Nat → List Nat
  | [] => []
  | b :: rest => (b ^^^ mask_key.getD (i % 4) 0) :: ws_xor_mask mask_key (i + 1) rest

/-- Take exactly `n` bytes off the front of the stream (a full `read`). -/
def readNBytes (n : Nat) (s : List Nat) : Option (List Nat × List Nat) :=
  if n ≤ s.length then some (s.take n, s.drop n) else none

/-- `ws_read_frame` (lines 118-168) over a byte stream: reads the 2-byte
header, extracts opcode / mask flag / 7-bit length, returns `-1` (here
`none`) on the close opcode, reads the 2- or 8-byte extended length, the
4-byte mask when the mask bit is set, then the payload, unmasking in place
only when masked.  Returns the opcode, the payload and the unread rest. -/
def ws_read_frame (s : List Nat) : Option (Nat × List Nat × List Nat) :=
  match s with
  | b0 :: b1 :: rest =>
      let opcode := b0 &&& 15
      let masked := (b1 &&& 128) ≠ 0
      let len7 := b1 &&& 127
      if opcode = 8 then none
      else
        let lenAndRest : Option (Nat × List Nat) :=
          if len7 = 126 then
            match readNBytes 2 rest with
            | some (ext, r) => some ((ext.getD 0 0) <<< 8 ||| ext.getD 1 0, r)
            | none => none
          else if len7 = 127 then
            match readNBytes 8 rest with
            | some (ext, r) => some (ext.foldl (fun acc b => acc <<< 8 ||| b) 0, r)
            | none => none
          else some (len7, rest)
        match lenAndRest with
        | none => none
        | some (len, r1) =>
            let maskAndRest : Option (List Nat × List Nat) :=
              if masked then readNBytes 4 r1 else some ([0, 0, 0, 0], r1)
            match maskAndRest with
            | none => none
            | some (mask_key, r2) =>
                match readNBytes len r2 with
                | none => none
                | some (data, r3) =>
                    let payload := if masked then ws_xor_mask mask_key 0 data else data
                    some (opcode, payload, r3)
  | _ => none

/-- Modelled from the spec: the masked client text frame of RFC 6455 — the
byte sequence a client sends for payload `p` under 4-byte mask `k` (FIN text
opcode `0x81`, mask bit set, 7/16/64-bit length, mask key, masked payload).
`ws_read_frame` consumes exactly these frames; the client encoder itself is
not part of the repository. -/
def ws_client_text_frame (mask_key : List Nat) (p : List Nat) : List Nat :=
  let len := p.length
  let lenBytes : List Nat :=
    if len < 126 then [128 ||| len]
    else if len < 65536 then [128 ||| 126, len >>> 8, len &&& 255]
    else [128 ||| 127] ++ be64_bytes len
  (128 ||| 1) :: lenBytes ++ mask_key ++ ws_xor_mask mask_key 0 p

/-- Modelled from the spec: an unmasked frame with arbitrary opcode (mask bit
clear), as §4.3's frame grammar describes for server-to-client traffic. -/
def ws_unmasked_frame (opcode : Nat) (p : List Nat) : List Nat :=
  let len := p.length
  let lenBytes : List Nat :=
    if len < 126 then [len]
    else if len < 65536 then [126, len >>> 8, len &&& 255]
    else [127] ++ be64_bytes len
  (128 ||| opcode) :: lenBytes ++ p

/-! ## Remaining shared definitions for the statements -/

/-- Left-biased choice on options (`x` if present, else `y`). -/
def optOr {α : Type} : Option α → Option α → Option α
  | some a, _ => some a
  | none, b => b

/-- The three-message request used to exercise the system-prompt selection. -/
def chatMsgsEx : List chat_msg :=
  [{ role := some "system", content := some "A" },
   { role := some "system", content := some "B" },
   { role := some "user", content := some "hi" }]

/-- A registry holding one tool, used to exercise the unknown-name path. -/
def toolCtxEx : kelp_tool_ctx :=
  { workspace_dir := none
    tools := [{ name := "desktop_click", description := "click",
                params_json := "\x7b\x7d",
                exec := fun _ => (0, { output := "[forwarded to desktop]",
                                       is_error := false, exit_code := 0 }),
                requires_sandbox := false, requires_confirmation := false }] }

/-- The route registered for `GET /health` in `main` (`part_015`); the
handler's concrete effect stands in for `handler_health`'s builder calls. -/
def routeHealth : route_t :=
  { method := http_method.GET, pattern := "/health",
    handler := fun _ =>
      { extra_headers := [("Content-Type", "application/json")],
        status := none, body := some "\x7b\"status\":\"ok\"\x7d" } }

/-- The route registered for `POST /hooks/webchat`. -/
def routeWebchat : route_t :=
  { method := http_method.POST, pattern := "/hooks/webchat",
    handler := fun _ =>
      { extra_headers := [("Content-Type", "application/json")],
        status := none, body := some "\x7b\x7d" } }

/-- The route registered for `POST /v1/chat/completions`. -/
def routeChat : route_t :=
  { method := http_method.POST, pattern := "/v1/chat/completions",
    handler := fun _ =>
      { extra_headers := [("Content-Type", "application/json")],
        status := none, body := some "\x7b\x7d" } }

/-- The gateway's route table as registered at startup. -/
def routesEx : List route_t := [routeHealth, routeWebchat, routeChat]

/-- A request whose single header line has a 256-character key — at the
`key_len < 256` bound, the key is silently left uncopied (reads back empty)
and parsing still completes. -/
def bufKeyEx : List Char :=
  "GET / HTTP/1.1\r\n".data ++ List.replicate 256 'a' ++ ": v\r\n\r\n".data

/-- A request whose URL is 2048 characters (`GW_MAX_URL_LEN`). -/
def bufUrlEx : List Char :=
  "GET /".data ++ List.replicate 2047 'x' ++ " HTTP/1.1\r\n\r\n".data

/-- A request with 65 identical header lines — one more than
`GW_MAX_HEADERS`. -/
def buf65Ex : List Char :=
  "GET / HTTP/1.1\r\n".data ++ (List.replicate 65 ("k: v\r\n".data)).flatten ++
    "\r\n".data

/-- The stored header array of a parse result that produced a request. -/
def parsed_headers : parse_outcome → Option (List http_header_kv)
  | parse_outcome.complete req => some req.headers
  | parse_outcome.needMoreBody req => some req.headers
  | _ => none

/-! # Theorems -/

/-! ## Helper lemmas -/

theorem optOr_assoc {α : Type} (a b c : Option α) :
    optOr (optOr a b) c = optOr a (optOr b c) := by
  cases a <;> cases b <;> rfl

theorem optOr_none_right {α : Type} (a : Option α) : optOr a none = a := by
  cases a <;> rfl

theorem optOr_absorb {α : Type} (a : Option α) (c : α) (b : Option α) :
    optOr (optOr a (some c)) b = optOr a (some c) := by
  cases a <;> rfl

theorem lastOpt_cons {α : Type} (a : α) (l : List α) :
    lastOpt (a :: l) = optOr (lastOpt l) (some a) := by
  simp only [lastOpt]
  cases lastOpt l <;> rfl

theorem chat_scan_foldl (msgs : List chat_msg) (acc : Option String × Option String) :
    msgs.foldl chat_scan_step acc =
      (optOr (lastOpt (contentsWithRole "user" msgs)) acc.1,
       optOr (lastOpt (contentsWithRole "system" msgs)) acc.2) := by
  induction msgs generalizing acc with
  | nil => rfl
  | cons m ms ih =>
      rw [List.foldl_cons, ih]
      rcases m with ⟨role, content⟩
      match role, content with
      | some r, some c =>
          by_cases hu : r = "user"
          · subst hu
            simp [contentsWithRole, chat_scan_step, lastOpt_cons, optOr_absorb]
          · by_cases hs : r = "system"
            · subst hs
              simp [contentsWithRole, chat_scan_step, lastOpt_cons, optOr_absorb]
            · simp [contentsWithRole, chat_scan_step, lastOpt_cons, optOr_absorb, hu, hs]
      | some r, none =>
          simp [contentsWithRole, chat_scan_step]
      | none, some c =>
          simp [contentsWithRole, chat_scan_step]
      | none, none =>
          simp [contentsWithRole, chat_scan_step]

/-! ## C1 -/

/-- C1: false on the code — `session_store_add_message` does insert the
message row `(s, role, content, now)`, but the follow-up
`UPDATE sessions SET updated_at = .. WHERE id = ?` goes through
`sqlite3_exec`, which never binds the `?`; the comparison against SQL `NULL`
matches no row, so the session's `updated_at` keeps its old value (5 here)
instead of the append time (100). -/
theorem session_store_add_message_never_updates_session :
    (session_store_add_message
        { sessions := [{ id := "s1", channel_id := "webchat",
                         created_at := 1, updated_at := 5 }],
          messages := [], next_msg_id := 1 } "s1" "user" "hi" 100) =
      ({ sessions := [{ id := "s1", channel_id := "webchat",
                        created_at := 1, updated_at := 5 }],
         messages := [{ id := 1, session_id := "s1", role := "user",
                        content := "hi", created_at := 100 }],
         next_msg_id := 2 }, true) := by
  decide

/-! ## C2 -/

/-- C2: counterexample — with two system messages `"A"` then `"B"` and one
user message, `handler_chat` forwards the pair (last user content, system
prompt) as `("hi", "B")`: the loop keeps the LAST system message, while the
claim says the FIRST (`"A"`) is used. -/
theorem handler_chat_first_system_counterexample :
    handler_chat_select chatMsgsEx "dflt" = some ("hi", "B") ∧
    (contentsWithRole "system" chatMsgsEx).head? = some "A" ∧
    (some ("hi", "B") : Option (String × String)) ≠ some ("hi", "A") := by
  decide

/-- C2 (amended): for every request whose messages contain at least one entry
with role `"user"` and string content, `handler_chat` forwards the content of
the LAST such entry, and uses as system prompt the content of the LAST entry
with role `"system"` and string content, falling back to the configured
default when there is none. -/
theorem handler_chat_last_user_last_system (msgs : List chat_msg)
    (default_system u : String)
    (h : lastOpt (contentsWithRole "user" msgs) = some u) :
    handler_chat_select msgs default_system =
      some (u, (lastOpt (contentsWithRole "system" msgs)).getD default_system) := by
  unfold handler_chat_select chat_scan
  rw [chat_scan_foldl, h]
  simp only [optOr, optOr_none_right]
  cases hs : lastOpt (contentsWithRole "system" msgs) <;> simp [optOr]

/-- C2 witness: the amended theorem applied to a concrete one-user-message
request. -/
theorem handler_chat_last_user_last_system_witness :
    handler_chat_select [{ role := some "user", content := some "ping" }] "sys0" =
      some ("ping", "sys0") := by
  have h := handler_chat_last_user_last_system
    [{ role := some "user", content := some "ping" }] "sys0" "ping" (by decide)
  simpa using h

/-! ## C9 -/

/-- C9: for every tool context and name not registered in it,
`kelp_tool_execute` returns rc `-1` with the fixed error result
`error: unknown tool '<name>'`, `is_error` true and `exit_code` `-1`,
without invoking any executor (no `exec` field is touched on this path). -/
theorem kelp_tool_execute_unknown_tool (ctx : kelp_tool_ctx) (name args : String)
    (h : kelp_map_get ctx name = none) :
    kelp_tool_execute ctx name args =
      (-1, { output := "error: unknown tool " ++ squote ++ name ++ squote,
             is_error := true, exit_code := -1 }) := by
  unfold kelp_tool_execute
  rw [h]

/-- C9 witness: a one-tool registry and the unknown name `"nope"`. -/
theorem kelp_tool_execute_unknown_tool_witness :
    kelp_tool_execute toolCtxEx "nope" "\x7b\x7d" =
      (-1, { output := "error: unknown tool " ++ squote ++ "nope" ++ squote,
             is_error := true, exit_code := -1 }) :=
  kelp_tool_execute_unknown_tool toolCtxEx "nope" "\x7b\x7d" rfl

/-! ## C3 -/

/-- C3: counterexample — on the registered route table, a `GET /nope` request
(not OPTIONS) falls through to the 404 `\x7b"error":"Not Found"\x7d` response,
whose header lines are only the Content-Type added by
`http_response_set_json`: no `Access-Control-Allow-Origin: *` is present,
contradicting the claim that every non-preflight response carries it. -/
theorem router_dispatch_404_no_cors_counterexample :
    router_dispatch routesEx { method := http_method.GET, path := "/nope" } =
      not_found_response ∧
    not_found_response.headers = [("Content-Type", "application/json")] ∧
    ("Access-Control-Allow-Origin", "*") ∉ not_found_response.headers ∧
    http_method.GET ≠ http_method.OPTIONS := by
  decide

/-- C3 (amended): for every dispatched non-OPTIONS request, when some route
matches, the response carries `Access-Control-Allow-Origin: *` (it is the
first header line, added before the handler runs); when no route matches, the
response is exactly the 404 `\x7b"error":"Not Found"\x7d` response, which does
NOT carry that header. -/
theorem router_dispatch_cors (routes : List route_t) (req : router_request)
    (hm : req.method ≠ http_method.OPTIONS) :
    (∀ r, routes.find? (fun r => route_matches r req.method req.path) = some r →
        ("Access-Control-Allow-Origin", "*") ∈ (router_dispatch routes req).headers) ∧
    (routes.find? (fun r => route_matches r req.method req.path) = none →
        router_dispatch routes req = not_found_response) := by
  constructor
  · intro r hr
    unfold router_dispatch
    rw [if_neg hm, hr]
    simp [apply_handler_effect, http_response_add_header, http_response_init]
  · intro h
    unfold router_dispatch
    rw [if_neg hm, h]

/-- C3 witness: the amended theorem applied to `POST /v1/chat/completions`
against the registered table, where the chat route matches. -/
theorem router_dispatch_cors_witness :
    ("Access-Control-Allow-Origin", "*") ∈
      (router_dispatch routesEx
        { method := http_method.POST, path := "/v1/chat/completions" }).headers :=
  (router_dispatch_cors routesEx
    { method := http_method.POST, path := "/v1/chat/completions" }
    (by decide)).1 routeChat rfl

/-! ## C6 -/

/-- C6: a `GET /health` turn increments `total_requests` before
`handler_health` runs, so the rendered body reports `status:"ok"`, the
declared version `0.1.0`, the monotonic uptime `now - start_time` (which the
hypothesis `start_time ≤ now` keeps an exact, non-wrapping difference) and a
`total_requests` count that includes this very request. -/
theorem gateway_health_turn_counts (gw : gateway_stats) (now : Nat)
    (h : gw.start_time ≤ now) :
    (gateway_health_turn gw now).1.total_requests = gw.total_requests + 1 ∧
    (gateway_health_turn gw now).2 =
      render_health_json "ok" OPENCLAW_VERSION (now - gw.start_time)
        (gw.total_requests + 1) gw.active_connections ∧
    gw.start_time + (now - gw.start_time) = now := by
  refine ⟨rfl, rfl, ?_⟩
  omega

/-- C6 witness: a gateway that has completed 7 requests, started at second
100, probed at second 160. -/
theorem gateway_health_turn_counts_witness :
    (gateway_health_turn { total_requests := 7, active_connections := 2,
                           start_time := 100 } 160).1.total_requests = 8 ∧
    (gateway_health_turn { total_requests := 7, active_connections := 2,
                           start_time := 100 } 160).2 =
      render_health_json "ok" OPENCLAW_VERSION 60 8 2 ∧
    100 + 60 = 160 := by
  have h := gateway_health_turn_counts
    { total_requests := 7, active_connections := 2, start_time := 100 } 160
    (by decide)
  simpa using h

/-! ## C7 -/

set_option maxRecDepth 100000 in
set_option maxHeartbeats 1000000 in
/-- C7: the claim is right about the intended computation and the code is
wrong — `WS_MAGIC` in the source is `258EAFA5-E914-47DA-95CA-5AB5DC085B11`, a
corrupted version of the RFC 6455 GUID `258EAFA5-E914-47DA-95CA-C5AB0DC85B11`.
For the RFC example key the upgrade therefore answers
`oaMi3hzjas62i/BuwYpSNXwtj5s=` instead of the claimed (and RFC-required)
`s3pPLMBiTxaQ9kYGzzhZRbK+xOo=`; every RFC-compliant client rejects this
handshake.  The 101 status line, `Upgrade`/`Connection` headers and the move
to WebSocket state are as claimed. -/
theorem ws_handle_upgrade_wrong_magic :
    ws_handle_upgrade [("Sec-WebSocket-Key", "dGhlIHNhbXBsZSBub25jZQ==")] =
      some { response :=
               "HTTP/1.1 101 Switching Protocols\r\nUpgrade: websocket\r\n" ++
               "Connection: Upgrade\r\nSec-WebSocket-Accept: " ++
               "oaMi3hzjas62i/BuwYpSNXwtj5s=" ++ "\r\n\r\n",
             is_websocket := true, conn_state_websocket := true } ∧
    ws_accept_for_key "dGhlIHNhbXBsZSBub25jZQ==" ≠ "s3pPLMBiTxaQ9kYGzzhZRbK+xOo=" ∧
    WS_MAGIC ≠ "258EAFA5-E914-47DA-95CA-C5AB0DC85B11" := by
  decide

/-! ## C4 -/

/-- C4 counterexample: on two messages of the same session sharing a
`created_at`, the id-descending sequence is a permitted output of
`ORDER BY created_at DESC` (a permutation sorted on `created_at`), yet it
violates the claimed newest-first-then-ascending-id order, and the rendered
history lists the id-2 row before the id-1 row. -/
theorem session_store_get_history_tie_counterexample :
    sqlite_order_by_created_desc
      (histStoreEx.messages.filter (fun m => m.session_id = "s1"))
      histTieOrderEx ∧
    ¬ (history_rows 50 histTieOrderEx).Pairwise newestFirstIdTie ∧
    session_store_get_history histStoreEx "s1" 50 histTieOrderEx =
      "[\x7b\"role\":\"assistant\",\"content\":\"b\"\x7d," ++
        "\x7b\"role\":\"user\",\"content\":\"a\"\x7d]" := by
  refine ⟨⟨?_, ?_⟩, by decide, rfl⟩
  · decide
  · decide

/-- **C4** (amended): for every store, session id, `int` limit and every row
sequence the engine may emit for `WHERE session_id = ? ORDER BY created_at
DESC` (a permutation of the session's rows sorted newest-first on
`created_at` alone), `session_store_get_history` renders the first
`limit` rows (`50` when `limit ≤ 0`) of that sequence as a JSON array; the
rendered rows number at most the bound, are newest-first by `created_at`,
belong to the requested session, and are all of its rows whenever those fit
under the bound; and when no two of the session's rows share a `created_at`
the order is additionally the claimed newest-first-then-ascending-id one.
The equal-timestamp tiebreak of the original claim is NOT guaranteed: the
query has no secondary sort key, so ties may come back in any order. -/
theorem session_store_get_history_ordering (st : session_store) (sid : String)
    (limit : Int) (ordered : List message_row)
    (hord : sqlite_order_by_created_desc
      (st.messages.filter (fun m => m.session_id = sid)) ordered) :
    session_store_get_history st sid limit ordered =
      "[" ++ render_history_rows (history_rows limit ordered) ++ "]" ∧
    (history_rows limit ordered).length ≤
      (if 0 < limit then limit.toNat else 50) ∧
    (history_rows limit ordered).Pairwise
      (fun a b => b.created_at ≤ a.created_at) ∧
    (∀ r ∈ history_rows limit ordered, r ∈ st.messages ∧ r.session_id = sid) ∧
    ((st.messages.filter (fun m => m.session_id = sid)).length ≤
        (if 0 < limit then limit.toNat else 50) →
      List.Perm (history_rows limit ordered)
        (st.messages.filter (fun m => m.session_id = sid))) ∧
    ((st.messages.filter (fun m => m.session_id = sid)).Pairwise
        (fun a b => a.created_at ≠ b.created_at) →
      (history_rows limit ordered).Pairwise newestFirstIdTie) := by
  refine ⟨rfl, ?_, ?_, ?_, ?_, ?_⟩
  · unfold history_rows
    exact List.length_take_le _ _
  · unfold history_rows
    exact hord.2.sublist (List.take_sublist _ _)
  · intro r hr
    unfold history_rows at hr
    have hr1 : r ∈ ordered := List.mem_of_mem_take hr
    have hr2 : r ∈ st.messages.filter (fun m => m.session_id = sid) :=
      hord.1.mem_iff.mp hr1
    have hr3 := List.mem_filter.mp hr2
    exact ⟨hr3.1, by simpa using hr3.2⟩
  · intro hlen
    unfold history_rows
    have hlen2 : ordered.length ≤ (if 0 < limit then limit.toNat else 50) := by
      rw [hord.1.length_eq]
      exact hlen
    rw [List.take_of_length_le hlen2]
    exact hord.1
  · intro hne
    unfold history_rows
    have hne2 : ordered.Pairwise (fun a b => a.created_at ≠ b.created_at) :=
      (hord.1.pairwise_iff (fun h => h.symm)).mpr hne
    have hcomb := hne2.and hord.2
    refine (hcomb.imp ?_).sublist (List.take_sublist _ _)
    intro a b hab
    exact Or.inl (by omega)

/-- C4 witness: the tie store probed with limit 1 under the same permitted
engine ordering: the guaranteed conjuncts hold even though the tiebreak
of the original claim fails on this ordering. -/
theorem session_store_get_history_ordering_witness :
    session_store_get_history histStoreEx "s1" 1 histTieOrderEx =
      "[" ++ render_history_rows (history_rows 1 histTieOrderEx) ++ "]" ∧
    (history_rows 1 histTieOrderEx).length ≤ 1 ∧
    (history_rows 1 histTieOrderEx).Pairwise
      (fun a b => b.created_at ≤ a.created_at) := by
  have h := session_store_get_history_ordering histStoreEx "s1" 1
    histTieOrderEx ⟨by decide, by decide⟩
  exact ⟨h.1, h.2.1, h.2.2.1⟩

/-! ## C8 and C10 helper lemmas -/

theorem ws_xor_mask_involution (k : List Nat) :
    ∀ (i : Nat) (p : List Nat), ws_xor_mask k i (ws_xor_mask k i p) = p := by
  intro i p
  induction p generalizing i with
  | nil => rfl
  | cons b rest ih =>
      simp only [ws_xor_mask]
      rw [Nat.xor_assoc, Nat.xor_self, Nat.xor_zero, ih]

theorem ws_xor_mask_length (k : List Nat) :
    ∀ (i : Nat) (p : List Nat), (ws_xor_mask k i p).length = p.length := by
  intro i p
  induction p generalizing i with
  | nil => rfl
  | cons b rest ih => simp [ws_xor_mask, ih]

theorem readNBytes_append (l r : List Nat) (n : Nat) (h : l.length = n) :
    readNBytes n (l ++ r) = some (l, r) := by
  subst h
  unfold readNBytes
  rw [if_pos (by simp), List.take_left, List.drop_left]

theorem masked_len7_byte : ∀ l < 126, (128 ||| l) &&& 127 = l ∧ (128 ||| l) &&& 128 = 128 := by
  decide

theorem masked_opcode_byte : ∀ op < 16, (128 ||| op) &&& 15 = op := by
  decide

theorem unmasked_len7_byte : ∀ l < 126, l &&& 127 = l ∧ l &&& 128 = 0 := by
  decide

theorem recompose_byte (m : Nat) : ((m >>> 8) <<< 8) ||| (m % 256) = m := by
  rw [Nat.shiftRight_eq_div_pow, Nat.shiftLeft_eq]
  have h28 : (2 : Nat) ^ 8 = 256 := by norm_num
  have hlt : m % 256 < 2 ^ 8 := by
    rw [h28]
    exact Nat.mod_lt m (by norm_num)
  have hor := Nat.mul_add_lt_is_or hlt (m / 256)
  rw [h28] at hor
  rw [h28, Nat.mul_comm (m / 256) 256, ← hor]
  exact Nat.div_add_mod m 256

theorem shift_step (n a b : Nat) (h : a = b + 8) :
    ((n >>> a) <<< 8) ||| (n >>> b) % 256 = n >>> b := by
  subst h
  rw [Nat.shiftRight_add n b 8]
  exact recompose_byte (n >>> b)

theorem fold_be64 (n : Nat) (h : n < 18446744073709551616) :
    (be64_bytes n).foldl (fun acc b => acc <<< 8 ||| b) 0 = n := by
  have h56 : (n >>> 56) % 256 = n >>> 56 := by
    apply Nat.mod_eq_of_lt
    rw [Nat.shiftRight_eq_div_pow]
    have h2 : (256 : Nat) * 2 ^ 56 = 18446744073709551616 := by norm_num
    exact (Nat.div_lt_iff_lt_mul (by positivity)).mpr (h2.symm ▸ h)
  simp only [be64_bytes, List.foldl_cons, List.foldl_nil]
  rw [(by decide : (0:Nat) <<< 8 = 0), Nat.zero_or, h56,
    shift_step n 56 48 rfl, shift_step n 48 40 rfl, shift_step n 40 32 rfl,
    shift_step n 32 24 rfl, shift_step n 24 16 rfl, shift_step n 16 8 rfl]
  exact recompose_byte n

theorem and255_eq_mod (n : Nat) : n &&& 255 = n % 256 := by
  have h := Nat.and_pow_two_sub_one_eq_mod n 8
  norm_num at h
  exact h

/-! ## C8 -/

/-- C8: the in-place XOR of `ws_read_frame` is an involution —
`unmask(mask(p, k), k) = p` for every payload `p` and mask key `k` — and,
consequently, reading any masked client text frame built from payload `p`
under a 4-byte key yields opcode 1 (text) and exactly the original payload
bytes (for every representable payload length, across all three length
encodings). -/
theorem ws_read_frame_mask_roundtrip (mask_key p extra : List Nat)
    (hk : mask_key.length = 4) :
    ws_xor_mask mask_key 0 (ws_xor_mask mask_key 0 p) = p ∧
    (p.length < 18446744073709551616 →
      ws_read_frame (ws_client_text_frame mask_key p ++ extra) =
        some (1, p, extra)) := by
  refine ⟨ws_xor_mask_involution mask_key 0 p, ?_⟩
  intro hlen
  have hop : (128 ||| 1) &&& 15 = 1 := by decide
  have hdata : readNBytes p.length (ws_xor_mask mask_key 0 p ++ extra) =
      some (ws_xor_mask mask_key 0 p, extra) :=
    readNBytes_append _ _ _ (ws_xor_mask_length mask_key 0 p)
  have hrm : readNBytes 4 (mask_key ++ (ws_xor_mask mask_key 0 p ++ extra)) =
      some (mask_key, ws_xor_mask mask_key 0 p ++ extra) :=
    readNBytes_append _ _ _ hk
  by_cases h1 : p.length < 126
  · have hb1 := masked_len7_byte p.length h1
    have hne : ¬ p.length = 126 := by omega
    have hne7 : ¬ p.length = 127 := by omega
    simp [ws_client_text_frame, h1, ws_read_frame, hop, hb1.1, hb1.2, hne, hne7,
      hrm, hdata, ws_xor_mask_involution]
    decide
  · by_cases h2 : p.length < 65536
    · have h254a : 254 &&& 127 = 126 := by decide
      have h254b : 254 &&& 128 = 128 := by decide
      have hlen16 : (p.length >>> 8) <<< 8 ||| (p.length &&& 255) = p.length := by
        rw [and255_eq_mod]
        exact recompose_byte p.length
      have hr2 : readNBytes 2 ((p.length >>> 8) :: (p.length &&& 255) ::
          (mask_key ++ (ws_xor_mask mask_key 0 p ++ extra))) =
          some ([p.length >>> 8, p.length &&& 255],
            mask_key ++ (ws_xor_mask mask_key 0 p ++ extra)) :=
        readNBytes_append [p.length >>> 8, p.length &&& 255] _ 2 rfl
      simp [ws_client_text_frame, h1, h2, ws_read_frame, hop, h254a, h254b,
        hr2, hlen16, hrm, hdata, ws_xor_mask_involution]
      decide
    · have h255a : 255 &&& 127 = 127 := by decide
      have h255b : 255 &&& 128 = 128 := by decide
      have hr8 : readNBytes 8 (be64_bytes p.length ++
          (mask_key ++ (ws_xor_mask mask_key 0 p ++ extra))) =
          some (be64_bytes p.length,
            mask_key ++ (ws_xor_mask mask_key 0 p ++ extra)) :=
        readNBytes_append _ _ 8 rfl
      have hfold := fold_be64 p.length hlen
      simp [ws_client_text_frame, h1, h2, ws_read_frame, hop, h255a, h255b,
        hr8, hfold, hrm, hdata, ws_xor_mask_involution]
      decide

/-- C8 witness: the two-byte payload `"hi"` under mask key `[1, 2, 3, 4]`. -/
theorem ws_read_frame_mask_roundtrip_witness :
    ws_xor_mask [1, 2, 3, 4] 0 (ws_xor_mask [1, 2, 3, 4] 0 [104, 105]) =
      [104, 105] ∧
    ws_read_frame (ws_client_text_frame [1, 2, 3, 4] [104, 105] ++ []) =
      some (1, [104, 105], []) := by
  have h := ws_read_frame_mask_roundtrip [1, 2, 3, 4] [104, 105] [] (by decide)
  exact ⟨h.1, h.2 (by decide)⟩

/-! ## C10 -/

/-- C10: `ws_read_frame` does not enforce client-side masking — for every
incoming frame whose mask bit is clear (any opcode below 16 other than
close), it reads no mask key, applies no XOR, and returns the payload bytes
verbatim together with the frame's opcode; the close opcode `0x8` (and only
it, among complete well-formed frames) makes it return `-1` (`none`),
terminating the connection. -/
theorem ws_read_frame_unmasked_verbatim (op : Nat) (p extra : List Nat)
    (hop : op < 16) (hlen : p.length < 18446744073709551616) :
    (op ≠ 8 → ws_read_frame (ws_unmasked_frame op p ++ extra) = some (op, p, extra)) ∧
    (op = 8 → ws_read_frame (ws_unmasked_frame op p ++ extra) = none) := by
  have hopb := masked_opcode_byte op hop
  have hdata : readNBytes p.length (p ++ extra) = some (p, extra) :=
    readNBytes_append _ _ _ rfl
  constructor
  · intro hne8
    by_cases h1 : p.length < 126
    · have hb1 := unmasked_len7_byte p.length h1
      have hne : ¬ p.length = 126 := by omega
      have hne7 : ¬ p.length = 127 := by omega
      simp [ws_unmasked_frame, h1, ws_read_frame, hopb, hb1.1, hb1.2, hne, hne7,
        hdata, hne8]
    · by_cases h2 : p.length < 65536
      · have h126a : 126 &&& 127 = 126 := by decide
        have h126b : 126 &&& 128 = 0 := by decide
        have hlen16 : (p.length >>> 8) <<< 8 ||| (p.length &&& 255) = p.length := by
          rw [and255_eq_mod]
          exact recompose_byte p.length
        have hr2 : readNBytes 2 ((p.length >>> 8) :: (p.length &&& 255) ::
            (p ++ extra)) =
            some ([p.length >>> 8, p.length &&& 255], p ++ extra) :=
          readNBytes_append [p.length >>> 8, p.length &&& 255] _ 2 rfl
        simp [ws_unmasked_frame, h1, h2, ws_read_frame, hopb, h126a, h126b, hr2,
          hlen16, hdata, hne8]
      · have h127a : 127 &&& 127 = 127 := by decide
        have h127b : 127 &&& 128 = 0 := by decide
        have hr8 : readNBytes 8 (be64_bytes p.length ++ (p ++ extra)) =
            some (be64_bytes p.length, p ++ extra) :=
          readNBytes_append _ _ 8 rfl
        have hfold := fold_be64 p.length hlen
        simp [ws_unmasked_frame, h1, h2, ws_read_frame, hopb, h127a, h127b, hr8,
          hfold, hdata, hne8]
  · intro h8
    subst h8
    have h136 : 136 &&& 15 = 8 := by decide
    by_cases h1 : p.length < 126
    · simp [ws_unmasked_frame, h1, ws_read_frame, h136]
    · by_cases h2 : p.length < 65536
      · simp [ws_unmasked_frame, h1, h2, ws_read_frame, h136]
      · simp [ws_unmasked_frame, h1, h2, ws_read_frame, h136]

/-- C10 witness: an unmasked two-byte text frame is returned verbatim with
trailing stream data preserved, and an unmasked close frame returns `-1`. -/
theorem ws_read_frame_unmasked_verbatim_witness :
    ws_read_frame (ws_unmasked_frame 1 [104, 105] ++ [7]) =
      some (1, [104, 105], [7]) ∧
    ws_read_frame (ws_unmasked_frame 8 [] ++ []) = none :=
  ⟨(ws_read_frame_unmasked_verbatim 1 [104, 105] [7] (by decide) (by decide)).1
      (by decide),
   (ws_read_frame_unmasked_verbatim 8 [] [] (by decide) (by decide)).2 rfl⟩

/-! ## C5 helper lemmas -/

theorem findCharIdx_cons_eq (c : Char) (l : List Char) :
    findCharIdx c (c :: l) = some 0 := by
  simp [findCharIdx]

theorem findCharIdx_cons_ne (x c : Char) (l : List Char) (h : x ≠ c) :
    findCharIdx c (x :: l) = (findCharIdx c l).map (· + 1) := by
  simp [findCharIdx, h]

theorem findCharIdx_append (c : Char) (l₁ l₂ : List Char)
    (h : ∀ x ∈ l₁, x ≠ c) :
    findCharIdx c (l₁ ++ l₂) = (findCharIdx c l₂).map (· + l₁.length) := by
  induction l₁ with
  | nil =>
      simp only [List.nil_append, List.length_nil]
      cases findCharIdx c l₂ <;> simp
  | cons x l ih =>
      rw [List.cons_append, findCharIdx_cons_ne x c _ (h x (List.mem_cons_self x l)),
        ih (fun y hy => h y (List.mem_cons_of_mem x hy))]
      cases findCharIdx c l₂ <;> simp <;> omega

theorem beginsWith_head_ne (c x : Char) (pr t : List Char) (h : x ≠ c) :
    beginsWith (c :: pr) (x :: t) = false := by
  simp [beginsWith, h, Ne.symm h]

theorem findSubIdx_append (c : Char) (pr : List Char) (l₁ l₂ : List Char)
    (h : ∀ x ∈ l₁, x ≠ c) :
    findSubIdx (c :: pr) (l₁ ++ l₂) =
      (findSubIdx (c :: pr) l₂).map (· + l₁.length) := by
  induction l₁ with
  | nil =>
      simp only [List.nil_append, List.length_nil]
      cases findSubIdx (c :: pr) l₂ <;> simp
  | cons x l ih =>
      rw [List.cons_append]
      simp only [findSubIdx,
        beginsWith_head_ne c x pr _ (h x (List.mem_cons_self x l)), Bool.false_eq_true,
        if_false]
      rw [ih (fun y hy => h y (List.mem_cons_of_mem x hy))]
      cases findSubIdx (c :: pr) l₂ <;> simp <;> omega

theorem parse_url_too_long (url : List Char) (hlen : GW_MAX_URL_LEN ≤ url.length)
    (hsp : ∀ c ∈ url, c ≠ ' ') (hcr : ∀ c ∈ url, c ≠ '\r') :
    http_parse_request_headers ("GET ".data ++ url ++ " HTTP/1.1\r\n\r\n".data) true =
      parse_outcome.protoErr := by
  have hsplit : (" HTTP/1.1\r\n\r\n".data : List Char) =
      " HTTP/1.1".data ++ "\r\n\r\n".data := by decide
  have hno_cr : ∀ x ∈ ("GET ".data ++ url) ++ " HTTP/1.1".data, x ≠ '\r' := by
    intro x hx
    rcases List.mem_append.mp hx with hx1 | hx2
    · rcases List.mem_append.mp hx1 with hx3 | hx4
      · exact (by decide : ∀ y ∈ "GET ".data, y ≠ '\r') x hx3
      · exact hcr x hx4
    · exact (by decide : ∀ y ∈ " HTTP/1.1".data, y ≠ '\r') x hx2
  have hfind4 : findSubIdx CRLFCRLF ("GET ".data ++ url ++ " HTTP/1.1\r\n\r\n".data) =
      some (url.length + 13) := by
    rw [hsplit, ← List.append_assoc]
    rw [show CRLFCRLF = '\r' :: ['\n', '\r', '\n'] from rfl]
    rw [findSubIdx_append '\r' ['\n', '\r', '\n'] _ _ hno_cr]
    rw [show findSubIdx ('\r' :: ['\n', '\r', '\n']) ("\r\n\r\n".data) = some 0 from rfl]
    simp [List.length_append]
  have hbufcons : ("GET ".data ++ url ++ " HTTP/1.1\r\n\r\n".data : List Char) =
      'G' :: 'E' :: 'T' :: ' ' :: (url ++ " HTTP/1.1\r\n\r\n".data) := by
    rw [List.append_assoc]
    rfl
  have hfindsp : findCharIdx ' ' ("GET ".data ++ url ++ " HTTP/1.1\r\n\r\n".data) =
      some 3 := by
    rw [hbufcons]
    rw [findCharIdx_cons_ne _ _ _ (by decide), findCharIdx_cons_ne _ _ _ (by decide),
      findCharIdx_cons_ne _ _ _ (by decide), findCharIdx_cons_eq]
    rfl
  have htail : (" HTTP/1.1\r\n\r\n".data : List Char) =
      ' ' :: "HTTP/1.1\r\n\r\n".data := by decide
  have hfindsp2 : findCharIdx ' '
      ((("GET ".data ++ url ++ " HTTP/1.1\r\n\r\n".data : List Char)).drop (3 + 1)) =
      some url.length := by
    rw [show (("GET ".data ++ url ++ " HTTP/1.1\r\n\r\n".data : List Char)).drop (3 + 1) =
      url ++ " HTTP/1.1\r\n\r\n".data by rw [hbufcons]; rfl]
    rw [htail, findCharIdx_append ' ' url _ hsp, findCharIdx_cons_eq]
    simp
  simp only [http_parse_request_headers, hfind4, hfindsp, hfindsp2]
  rw [if_pos hlen]

theorem option_toList_len_le {α : Type} (o : Option α) : o.toList.length ≤ 1 := by
  cases o <;> simp

theorem mk_header_entry_bounds (buf : List Char) (pos crel nextAbs : Nat) :
    (mk_header_entry buf pos crel nextAbs).key.length < 256 ∧
    (mk_header_entry buf pos crel nextAbs).value.length < 512 := by
  by_cases h1 : crel < 256 <;>
    by_cases h2 : nextAbs - (pos + crel + 1 +
      count_leading_spaces (buf.drop (pos + crel + 1))) < 512 <;>
    simp [mk_header_entry, subList, h1, h2, List.length_take] <;> omega

theorem parse_headers_go_len (buf : List Char) (headerEnd : Nat) :
    ∀ (fuel pos : Nat) (acc : List http_header_kv), acc.length ≤ GW_MAX_HEADERS →
      (parse_headers_go buf headerEnd fuel pos acc).length ≤ GW_MAX_HEADERS := by
  intro fuel
  induction fuel with
  | zero =>
      intro pos acc h
      simpa [parse_headers_go] using h
  | succ f ih =>
      intro pos acc h
      rw [parse_headers_go]
      split
      · rename_i hg
        split
        · exact h
        · split
          · exact h
          · apply ih
            have h1 : ∀ (o : Option http_header_kv), acc.length < GW_MAX_HEADERS →
                (acc ++ o.toList).length ≤ GW_MAX_HEADERS := by
              intro o ho
              rw [List.length_append]
              have h2 := option_toList_len_le o
              omega
            exact h1 _ hg.2
      · exact h

theorem parse_headers_go_bounds (buf : List Char) (headerEnd : Nat) :
    ∀ (fuel pos : Nat) (acc : List http_header_kv),
      (∀ e ∈ acc, e.key.length < 256 ∧ e.value.length < 512) →
      ∀ e ∈ parse_headers_go buf headerEnd fuel pos acc,
        e.key.length < 256 ∧ e.value.length < 512 := by
  intro fuel
  induction fuel with
  | zero =>
      intro pos acc h
      simpa [parse_headers_go] using h
  | succ f ih =>
      intro pos acc h
      rw [parse_headers_go]
      split
      · split
        · exact h
        · split
          · exact h
          · split
            · apply ih
              simpa using h
            · split
              · apply ih
                intro e he
                rcases List.mem_append.mp he with h1 | h2
                · exact h e h1
                · simp only [Option.toList_some, List.mem_singleton] at h2
                  subst h2
                  exact mk_header_entry_bounds buf _ _ _
              · apply ih
                simpa using h
      · exact h

theorem connection_read_go_none_iff :
    ∀ (fuel : Nat) (buf incoming : List Char) (k : Nat), k ≤ 7 →
      buf.length + 1 ≤ 8192 * 2 ^ k →
      incoming.length + (8 - k) + 1 ≤ fuel →
      (connection_read_go fuel buf (8192 * 2 ^ k) incoming = none ↔
        1048576 ≤ buf.length + incoming.length + 1) := by
  intro fuel
  induction fuel with
  | zero =>
      intro buf incoming k hk hbuf hfuel
      exact absurd hfuel (by omega)
  | succ f ih =>
      intro buf incoming k hk hbuf hfuel
      simp only [connection_read_go]
      by_cases hfull : 8192 * 2 ^ k ≤ buf.length + 1
      · rw [if_pos hfull]
        by_cases hk7 : k = 7
        · subst hk7
          rw [if_pos (by decide)]
          have h1 : (1048576 : Nat) ≤ buf.length + 1 := by
            norm_num at hfull
            exact hfull
          constructor
          · intro _
            omega
          · intro _
            rfl
        · have hkk : k ≤ 6 := by omega
          have hle : (2 : Nat) ^ k ≤ 64 := by
            calc (2 : Nat) ^ k ≤ 2 ^ 6 := Nat.pow_le_pow_right (by norm_num) hkk
              _ = 64 := by norm_num
          rw [if_neg (by
            unfold GW_MAX_BODY_LEN GW_READ_BUF_SIZE
            omega)]
          have hcap2 : 8192 * 2 ^ k * 2 = 8192 * 2 ^ (k + 1) := by ring
          have hstep : 8192 * 2 ^ (k + 1) = 8192 * 2 ^ k * 2 := by ring
          rw [hcap2]
          exact ih buf incoming (k + 1) (by omega) (by omega) (by omega)
      · rw [if_neg hfull]
        have hle : (2 : Nat) ^ k ≤ 128 := by
          calc (2 : Nat) ^ k ≤ 2 ^ 7 := Nat.pow_le_pow_right (by norm_num) hk
            _ = 128 := by norm_num
        cases incoming with
        | nil =>
            have hnot : ¬ (1048576 ≤ buf.length + ([] : List Char).length + 1) := by
              simp only [List.length_nil]
              omega
            simp [hnot]
            omega
        | cons c rest =>
            simp only []
            have hn1 : 1 ≤ min (8192 * 2 ^ k - buf.length - 1) (rest.length + 1) := by
              omega
            have hbuf' : (buf ++ (c :: rest).take
                (min (8192 * 2 ^ k - buf.length - 1) (rest.length + 1))).length + 1 ≤
                8192 * 2 ^ k := by
              simp only [List.length_append, List.length_take, List.length_cons]
              omega
            have hfuel' : ((c :: rest).drop
                (min (8192 * 2 ^ k - buf.length - 1) (rest.length + 1))).length +
                (8 - k) + 1 ≤ f := by
              simp only [List.length_drop, List.length_cons]
              simp only [List.length_cons] at hfuel
              omega
            rw [ih _ _ k hk hbuf' hfuel']
            simp only [List.length_append, List.length_take, List.length_drop,
              List.length_cons]
            constructor <;> intro h <;> omega

theorem http_parse_request_headers_bounds (buf : List Char) (ka : Bool)
    (req : http_request_t)
    (h : http_parse_request_headers buf ka = parse_outcome.complete req ∨
         http_parse_request_headers buf ka = parse_outcome.needMoreBody req) :
    req.headers.length ≤ GW_MAX_HEADERS ∧
    ∀ e ∈ req.headers, e.key.length < 256 ∧ e.value.length < 512 := by
  rcases h with h | h <;>
  · unfold http_parse_request_headers at h
    repeat' first
      | split at h
      | simp only [] at h
    all_goals first
      | (injection h with h
         subst h
         exact ⟨parse_headers_go_len buf _ _ _ [] (Nat.zero_le _),
                parse_headers_go_bounds buf _ _ _ [] (by simp)⟩)
      | (injection h with h
         subst h
         exact ⟨Nat.zero_le _, by simp⟩)
      | injection h

/-- **C5** (amended): the four declared bounds are enforced in three different
ways, only one of which matches the claim.  (i) A URL of `GW_MAX_URL_LEN` or
more characters makes `http_parse_request` return the protocol error, but
(ii) `handle_client_data` ignores that `-1` and leaves the connection open.
(iii) Over-long header keys/values and excess headers are silently
truncated/dropped: every request the parser produces has at most
`GW_MAX_HEADERS` headers, keys shorter than 256 and values shorter than 512
bytes, with no error ever raised for them.  (iv) Only the total-size bound is
enforced by close: reading into an 8 KiB buffer fails exactly when the
buffered request reaches `GW_MAX_BODY_LEN` bytes (counting the spare
terminator byte), and (v) that failure does close the connection. -/
theorem http_bounds_enforcement :
    (∀ (url : List Char), GW_MAX_URL_LEN ≤ url.length →
      (∀ c ∈ url, c ≠ ' ') → (∀ c ∈ url, c ≠ '\r') →
      http_parse_request_headers ("GET ".data ++ url ++ " HTTP/1.1\r\n\r\n".data)
          true = parse_outcome.protoErr) ∧
    (∀ ka : Bool, handle_client_data_closes (some parse_outcome.protoErr) ka = false) ∧
    (∀ (buf : List Char) (ka : Bool) (req : http_request_t),
      (http_parse_request_headers buf ka = parse_outcome.complete req ∨
       http_parse_request_headers buf ka = parse_outcome.needMoreBody req) →
      req.headers.length ≤ GW_MAX_HEADERS ∧
      ∀ e ∈ req.headers, e.key.length < 256 ∧ e.value.length < 512) ∧
    (∀ (buf incoming : List Char), buf.length + 1 ≤ GW_READ_BUF_SIZE →
      (connection_read buf GW_READ_BUF_SIZE incoming = none ↔
        GW_MAX_BODY_LEN ≤ buf.length + incoming.length + 1)) ∧
    (∀ ka : Bool, handle_client_data_closes none ka = true) := by
  refine ⟨parse_url_too_long, fun ka => rfl, http_parse_request_headers_bounds,
    ?_, fun ka => rfl⟩
  intro buf incoming hbuf
  have h := connection_read_go_none_iff (incoming.length + 16) buf incoming 0
    (by decide) (by simpa [GW_READ_BUF_SIZE] using hbuf) (by omega)
  unfold connection_read GW_READ_BUF_SIZE GW_MAX_BODY_LEN
  simpa using h

set_option maxRecDepth 100000 in
set_option maxHeartbeats 1000000 in
/-- Witness for `http_bounds_enforcement`: a 2048-character URL is rejected
yet does not close the connection, and a read that brings the buffered
request to `GW_MAX_BODY_LEN` bytes fails and does close it. -/
theorem http_bounds_enforcement_witness :
    http_parse_request_headers
        ("GET ".data ++ List.replicate 2048 'x' ++ " HTTP/1.1\r\n\r\n".data) true =
      parse_outcome.protoErr ∧
    handle_client_data_closes (some parse_outcome.protoErr) true = false ∧
    connection_read [] GW_READ_BUF_SIZE (List.replicate 1048575 'a') = none ∧
    handle_client_data_closes none true = true := by
  refine ⟨http_bounds_enforcement.1 (List.replicate 2048 'x')
      (by simp [GW_MAX_URL_LEN])
      (by intro c hc; rw [List.eq_of_mem_replicate hc]; decide)
      (by intro c hc; rw [List.eq_of_mem_replicate hc]; decide),
    http_bounds_enforcement.2.1 true,
    (http_bounds_enforcement.2.2.2.1 [] (List.replicate 1048575 'a')
      (by rw [List.length_nil]; decide)).mpr
      (by rw [List.length_nil, List.length_replicate]; decide),
    http_bounds_enforcement.2.2.2.2 true⟩

set_option maxRecDepth 100000 in
set_option maxHeartbeats 2000000 in
/-- Counterexample to the claimed behaviour: a 256-byte header key is
silently dropped (the entry reads back with an empty key) and parsing
completes; 65 header lines parse to exactly 64 stored headers with no error;
and while an over-long URL is the one bound that does yield the protocol
error, `handle_client_data` does not close the connection on it. -/
theorem http_bounds_counterexample :
    parsed_headers (http_parse_request_headers bufKeyEx true) =
      some [{ key := [], value := ['v'] }] ∧
    (parsed_headers (http_parse_request_headers buf65Ex true)).map List.length =
      some GW_MAX_HEADERS ∧
    http_parse_request_headers bufUrlEx true = parse_outcome.protoErr ∧
    handle_client_data_closes (some parse_outcome.protoErr) true = false := by
  refine ⟨by decide, by decide, ?_, rfl⟩
  have hb : bufUrlEx =
      "GET ".data ++ (Char.ofNat 47 :: List.replicate 2047 'x') ++
        " HTTP/1.1\r\n\r\n".data := rfl
  rw [hb]
  refine parse_url_too_long _ (by simp [GW_MAX_URL_LEN]) ?_ ?_ <;>
  · intro c hc
    rcases List.mem_cons.mp hc with h | h
    · subst h; decide
    · rw [List.eq_of_mem_replicate h]; decide
